import Mathlib

/-!
Verification of the zerodha-liquidity-analysis ingestion pipeline.

Shallow embedding of the pipeline's Python modules:
`src/instruments.py` (token distribution), `src/connector.py` (socket
connections and the multi-socket coordinator), `src/redis_publisher.py`
(stream publisher), `src/receiver.py` (stream receiver, consume loop,
periodic flush) and `src/persistence.py` (SQLite writer).

Python dict lookups with `.get(key)` are embedded as `Option` fields;
code that can raise is embedded with `Except`/`Option` results; faults
of the external stores (SQLite, Redis) are injected through explicit
oracle parameters.  Numeric payload values (prices, quantities) are
embedded as `Int`: no claim computes with them, only moves them around.
-/

namespace ZLA

/-- One bid/ask depth level of a tick: the dict `{price, quantity, orders}`
(each field read with `.get`, hence optional). -/
structure DepthLevel where
  price : Option Int
  quantity : Option Int
  orders : Option Int
  deriving DecidableEq, Repr

/-- The `depth` dict of a tick: `{"buy": [...], "sell": [...]}`, each side
read with `depth.get(side, [])`. -/
structure DepthDict where
  buy : List DepthLevel
  sell : List DepthLevel
  deriving DecidableEq, Repr

/-- The `ohlc` dict of a tick, fields read with `.get`.  `open` is a Lean
keyword, so the field is `open_px` (source key: "open"). -/
structure Ohlc where
  open_px : Option Int
  high : Option Int
  low : Option Int
  close : Option Int
  deriving DecidableEq, Repr

/-- A tick as the dict-shaped payload flowing through the pipeline; each
field is a key the source reads with `tick.get(...)`, hence `Option`. -/
structure Tick where
  instrument_token : Option Int
  tradingsymbol : Option String
  exchange_timestamp : Option String
  last_price : Option Int
  last_traded_quantity : Option Int
  average_traded_price : Option Int
  volume_traded : Option Int
  total_buy_quantity : Option Int
  total_sell_quantity : Option Int
  ohlc : Option Ohlc
  change : Option Int
  oi : Option Int
  oi_day_high : Option Int
  oi_day_low : Option Int
  mode : Option String
  received_at : Option String
  depth : Option DepthDict
  name : Option String
  deriving DecidableEq, Repr

/-- A tick dict with every key absent (the empty dict). -/
def Tick.empty : Tick :=
  ⟨none, none, none, none, none, none, none, none, none,
   none, none, none, none, none, none, none, none, none⟩

namespace PyDate

/-- A calendar date (year, month, day). -/
structure Date where
  year : Nat
  month : Nat
  day : Nat
  deriving DecidableEq, Repr

def isLeap (y : Nat) : Bool :=
  (y % 4 == 0 && y % 100 != 0) || y % 400 == 0

def daysInMonth (y m : Nat) : Nat :=
  if m = 2 then (if isLeap y then 29 else 28)
  else if m = 4 ∨ m = 6 ∨ m = 9 ∨ m = 11 then 30
  else 31

def digitVal (c : Char) : Nat := c.toNat - 48

def parse2Digits : List Char → Option (Nat × List Char)
  | a :: b :: rest =>
    if a.isDigit && b.isDigit then some (digitVal a * 10 + digitVal b, rest)
    else none
  | _ => none

def parse4Digits : List Char → Option (Nat × List Char)
  | a :: b :: c :: d :: rest =>
    if a.isDigit && b.isDigit && c.isDigit && d.isDigit then
      some (((digitVal a * 10 + digitVal b) * 10 + digitVal c) * 10 + digitVal d,
        rest)
    else none
  | _ => none

/-- The `YYYY-MM-DD` prefix of an ISO timestamp. -/
def parseDatePart (cs : List Char) : Option (Date × List Char) :=
  match parse4Digits cs with
  | some (y, '-' :: rest) =>
    (match parse2Digits rest with
     | some (m, '-' :: rest2) =>
       (match parse2Digits rest2 with
        | some (d, rest3) => some (⟨y, m, d⟩, rest3)
        | none => none)
     | _ => none)
  | _ => none

/-- A UTC-offset suffix: nothing, `Z`/`z`, or `±HH:MM`. -/
def validTZ : List Char → Bool
  | [] => true
  | ['Z'] => true
  | ['z'] => true
  | c :: rest =>
    (c == '+' || c == '-') &&
      (match parse2Digits rest with
       | some (h, ':' :: r2) =>
         (match parse2Digits r2 with
          | some (mi, []) => decide (h < 24) && decide (mi < 60)
          | _ => false)
       | _ => false)

/-- An ISO time `HH[:MM[:SS[.ffffff]]]` with optional offset. -/
def validTime (cs : List Char) : Bool :=
  match parse2Digits cs with
  | none => false
  | some (h, rest) =>
    decide (h < 24) &&
    (match rest with
     | ':' :: r2 =>
       (match parse2Digits r2 with
        | none => false
        | some (mi, r3) =>
          decide (mi < 60) &&
          (match r3 with
           | ':' :: r4 =>
             (match parse2Digits r4 with
              | none => false
              | some (s, r5) =>
                decide (s < 60) &&
                (match r5 with
                 | '.' :: fr =>
                   (!(fr.takeWhile Char.isDigit).isEmpty) &&
                     validTZ (fr.dropWhile Char.isDigit)
                 | r5' => validTZ r5'))
           | r3' => validTZ r3'))
     | rest' => validTZ rest')

/-- Modelled from CPython `datetime.fromisoformat` (called at
src/receiver.py:320,331 and src/persistence.py:121), restricted to the
date component that `strftime("%Y-%m-%d")` extracts: a `YYYY-MM-DD`
prefix with calendar validation, optionally followed by a one-character
separator and an ISO time with optional offset — the shape
`datetime.isoformat()` emits, which is what flows through this pipeline.
`none` embeds the `ValueError` for unparsable input. -/
def fromisoformat (s : String) : Option Date :=
  match parseDatePart s.data with
  | none => none
  | some (d, rest) =>
    if 1 ≤ d.year ∧ 1 ≤ d.month ∧ d.month ≤ 12 ∧
        1 ≤ d.day ∧ d.day ≤ daysInMonth d.year d.month then
      match rest with
      | [] => some d
      | _ :: timecs => if validTime timecs then some d else none
    else none

/-- Zero-pad a number to `w` digits. -/
def pad (w n : Nat) : String :=
  let s := toString n
  String.mk (List.replicate (w - s.length) '0') ++ s

/-- `strftime("%Y-%m-%d")` / `date.isoformat()`. -/
def formatDate (d : Date) : String :=
  pad 4 d.year ++ "-" ++ pad 2 d.month ++ "-" ++ pad 2 d.day

end PyDate

namespace InstrumentManager

/-- An instrument record as handed to `distribute_tokens`
(`src/instruments.py`); only `instrument_token` is read there. -/
structure Instrument where
  instrument_token : Int
  tradingsymbol : String
  deriving DecidableEq, Repr

/-- `buckets[j].append(t)`: replace bucket `j` by itself with `t` at the end. -/
def appendAt (j : Nat) (t : Int) (buckets : List (List Int)) : List (List Int) :=
  buckets.set j (buckets.getD j [] ++ [t])

/-- The loop `for i, token in enumerate(tokens): buckets[i % num_sockets].append(token)`
of `InstrumentManager.distribute_tokens` (src/instruments.py:211-212),
with `i` the running enumeration index. -/
def fillBuckets (n : Nat) : Nat → List Int → List (List Int) → List (List Int)
  | _, [], buckets => buckets
  | i, t :: ts, buckets => fillBuckets n (i + 1) ts (appendAt (i % n) t buckets)

/-- `InstrumentManager.distribute_tokens` (src/instruments.py:204-215).
`none` embeds the `ZeroDivisionError` Python raises at `i % num_sockets`
when `min(num_sockets, 3) == 0` and the token list is non-empty. -/
def distribute_tokens (instruments : List Instrument) (num_sockets : Nat) :
    Option (List (List Int)) :=
  let n := min num_sockets 3
  let tokens := instruments.map (·.instrument_token)
  if tokens.isEmpty then some (List.replicate n [])
  else if n = 0 then none
  else some (fillBuckets n 0 tokens (List.replicate n []))

/-- Specification view of one bucket: the tokens whose enumeration index
is congruent to `j` modulo `n`, starting the enumeration at `i`. -/
def specBucket (n : Nat) : Nat → List Int → Nat → List Int
  | _, [], _ => []
  | i, t :: ts, j => (if i % n = j then [t] else []) ++ specBucket n (i + 1) ts j

end InstrumentManager

namespace RedisPublisher

/-- `RedisPublisher` state (src/redis_publisher.py): `_client` is `None`
until `connect()`; the stream holds the appended `{"data": serialized}`
entries.  Serialization is injective on the embedded `Tick`, so stream
entries are embedded as the ticks themselves; `MAXLEN` trimming only drops
oldest entries (a memory bound no claim depends on) and is not modelled. -/
structure PubState where
  client : Option Unit
  stream : List Tick
  deriving DecidableEq, Repr

/-- The `try:` body of `publish_ticks` (src/redis_publisher.py:48-58): a
pipeline of `XADD`s executed in one round trip; a transport fault makes
`pipe.execute()` raise `redis.RedisError`, embedded as `Except.error`. -/
def publishTicksTry (fault : Bool) (stream ticks : List Tick) :
    Except Unit (List Tick) :=
  if fault then .error () else .ok (stream ++ ticks)

/-- `RedisPublisher.publish_ticks` (src/redis_publisher.py:43-60): logs and
returns when `_client is None`; catches `redis.RedisError` from the
pipeline and returns normally. -/
def publish_ticks (pub : PubState) (ticks : List Tick) (fault : Bool) :
    PubState :=
  match pub.client with
  | none => pub
  | some _ =>
    match publishTicksTry fault pub.stream ticks with
    | .ok s => { pub with stream := s }
    | .error _ => pub

end RedisPublisher

namespace SocketConnection

/-- The value of `token_to_symbol[token]`: a dict whose keys `_on_ticks`
reads with `.get("tradingsymbol", ...)` and `"name" in info`. -/
structure SymbolInfo where
  tradingsymbol : Option String
  name : Option String
  deriving DecidableEq, Repr

/-- `self.token_to_symbol.get(token, {})`: the map is int-keyed, so a
`None` token never matches. -/
def lookupInfo (m : List (Int × SymbolInfo)) (token : Option Int) :
    Option SymbolInfo :=
  match token with
  | none => none
  | some t => (m.find? (fun p => p.1 == t)).map (·.2)

/-- Enrichment of one tick in the `for tick in ticks` loop of
`SocketConnection._on_ticks` (src/connector.py:84-89):
`tick["tradingsymbol"] = info.get("tradingsymbol", f"TOKEN_{token}" if token else "UNKNOWN")`
(a token of `0` or `None` is falsy in Python), then
`if "name" in info: tick["name"] = info["name"]`. -/
def enrichTick (m : List (Int × SymbolInfo)) (tick : Tick) : Tick :=
  let token := tick.instrument_token
  let info := (lookupInfo m token).getD ⟨none, none⟩
  let fallback :=
    match token with
    | some t => if t ≠ 0 then "TOKEN_" ++ toString t else "UNKNOWN"
    | none => "UNKNOWN"
  let tick := { tick with tradingsymbol := some (info.tradingsymbol.getD fallback) }
  match info.name with
  | some nm => { tick with name := some nm }
  | none => tick

/-- Mutable per-socket state of `SocketConnection` (src/connector.py:50-77). -/
structure ConnState where
  socket_id : Nat
  tokens : List Int
  tick_count : Nat
  connected : Bool
  last_tick_time : Nat
  deriving DecidableEq, Repr

/-- `SocketConnection._on_ticks` (src/connector.py:80-92): bump the tick
count, stamp the last-tick time, enrich every tick of the batch, then
forward the whole batch with `publisher.publish_ticks`.  The surrounding
`try/except` only logs: enrichment is total and `publish_ticks` already
swallows transport errors, so no exception escapes the callback. -/
def on_ticks (m : List (Int × SymbolInfo)) (now : Nat) (st : ConnState)
    (pub : RedisPublisher.PubState) (ticks : List Tick) (fault : Bool) :
    ConnState × RedisPublisher.PubState :=
  let st := { st with
    tick_count := st.tick_count + ticks.length
    last_tick_time := now }
  (st, RedisPublisher.publish_ticks pub (ticks.map (enrichTick m)) fault)

end SocketConnection

namespace MultiSocketConnector

/-- `MultiSocketConnector` state (src/connector.py:133-146): `__init__`
computes `num_sockets = min(config num_sockets, 3)` (never read by
`start`) and sets `sockets = []`. -/
structure MSC where
  num_sockets : Nat
  sockets : List SocketConnection.ConnState
  deriving DecidableEq, Repr

/-- `MultiSocketConnector.__init__` (src/connector.py:136-146). -/
def mkConnector (cfg_num_sockets : Nat) : MSC :=
  { num_sockets := min cfg_num_sockets 3, sockets := [] }

/-- Observable actions of `start`: creating/starting one `SocketConnection`
for a bucket, and the `time.sleep(1)` between consecutive starts. -/
inductive StartEv where
  | create (socket_id : Nat) (tokens : List Int)
  | sleep
  deriving DecidableEq, Repr

/-- `SocketConnection(socket_id=idx, tokens=bucket, ...)` as constructed in
`start` (src/connector.py:155-165); `_connected` starts `False`,
`_last_tick_time` starts at `time.time()`. -/
def newSocket (idx : Nat) (tokens : List Int) (now : Nat) :
    SocketConnection.ConnState :=
  { socket_id := idx, tokens := tokens, tick_count := 0,
    connected := false, last_tick_time := now }

/-- The `for idx, bucket in enumerate(active)` loop of `start`
(src/connector.py:154-169): start a socket per bucket, sleep 1s after each
except the last (`if idx < len(active) - 1`); `total` is `len(active)`. -/
def startLoop (now total : Nat) : Nat → List (List Int) →
    List SocketConnection.ConnState × List StartEv
  | _, [] => ([], [])
  | idx, b :: rest =>
    let evs := if idx < total - 1
      then [StartEv.create idx b, StartEv.sleep]
      else [StartEv.create idx b]
    let (socks, tr) := startLoop now total (idx + 1) rest
    (newSocket idx b now :: socks, evs ++ tr)

/-- `MultiSocketConnector.start` (src/connector.py:148-170): reset
`sockets`, keep the buckets with `len(b) > 0`, return early when none,
else run the start loop. -/
def start (c : MSC) (now : Nat) (token_buckets : List (List Int)) :
    MSC × List StartEv :=
  let active := token_buckets.filter (fun b => decide (0 < b.length))
  if active.isEmpty then ({ c with sockets := [] }, [])
  else
    let (socks, tr) := startLoop now active.length 0 active
    ({ c with sockets := socks }, tr)

/-- `MultiSocketConnector.stop` (src/connector.py:172-176): stops each
socket, then `self.sockets.clear()`. -/
def stop (c : MSC) : MSC := { c with sockets := [] }

/-- `MultiSocketConnector.all_connected` (src/connector.py:188-190):
`all(s.is_connected for s in self.sockets)`. -/
def all_connected (c : MSC) : Bool :=
  c.sockets.all (fun s => s.connected)

end MultiSocketConnector

namespace TickPersistence

/-- `TickPersistence._trade_date` (src/persistence.py:117-124), with
`today` the ambient `date.today()`: the `YYYY-MM-DD` of a non-empty
parsable timestamp, else today's ISO date; the `try/except` makes it
total. -/
def trade_date (today : PyDate.Date) (ts_str : String) : String :=
  if ts_str ≠ "" then
    match PyDate.fromisoformat ts_str with
    | some d => PyDate.formatDate d
    | none => PyDate.formatDate today
  else PyDate.formatDate today

/-- One row of the `ticks` table: the columns of the INSERT in
`persist_ticks` (src/persistence.py:76-100); `id` is the SQLite rowid. -/
structure TickRow where
  id : Nat
  instrument_token : Option Int
  tradingsymbol : String
  exchange_timestamp : String
  last_price : Option Int
  last_traded_quantity : Option Int
  average_traded_price : Option Int
  volume_traded : Option Int
  total_buy_quantity : Option Int
  total_sell_quantity : Option Int
  open_px : Option Int
  high : Option Int
  low : Option Int
  close : Option Int
  change_pct : Option Int
  oi : Option Int
  oi_day_high : Option Int
  oi_day_low : Option Int
  tick_mode : String
  received_at : String
  trade_date : String
  deriving DecidableEq, Repr

/-- One row of `tick_depths` (src/persistence.py:105-108); the table's own
surrogate id is omitted — no claim reads it. -/
structure DepthRow where
  tick_id : Nat
  side : String
  level : Nat
  price : Option Int
  quantity : Option Int
  orders : Option Int
  deriving DecidableEq, Repr

/-- A SQLite connection: the committed tables plus the uncommitted
statements of the open transaction; `next_id` is the `ticks`
AUTOINCREMENT counter (`cursor.lastrowid` after a tick INSERT). -/
structure SqliteConn where
  ticks : List TickRow
  tick_depths : List DepthRow
  pending_ticks : List TickRow
  pending_depths : List DepthRow
  next_id : Nat
  deriving DecidableEq, Repr

/-- The row built by the `INSERT INTO ticks` values of `persist_ticks`
(src/persistence.py:84-100); `nowStr` is `datetime.now().isoformat()`,
the default for a missing `received_at`. -/
def tickRow (today : PyDate.Date) (nowStr : String) (id : Nat) (t : Tick) :
    TickRow :=
  let ohlc := t.ohlc.getD ⟨none, none, none, none⟩
  let exchange_ts := t.exchange_timestamp.getD ""
  { id := id
    instrument_token := t.instrument_token
    tradingsymbol := t.tradingsymbol.getD ""
    exchange_timestamp := exchange_ts
    last_price := t.last_price
    last_traded_quantity := t.last_traded_quantity
    average_traded_price := t.average_traded_price
    volume_traded := t.volume_traded
    total_buy_quantity := t.total_buy_quantity
    total_sell_quantity := t.total_sell_quantity
    open_px := ohlc.open_px
    high := ohlc.high
    low := ohlc.low
    close := ohlc.close
    change_pct := t.change
    oi := t.oi
    oi_day_high := t.oi_day_high
    oi_day_low := t.oi_day_low
    tick_mode := t.mode.getD ""
    received_at := t.received_at.getD nowStr
    trade_date := trade_date today exchange_ts }

/-- The `tick_depths` rows for one tick: `for side in ("buy", "sell"):
for level, entry in enumerate(depth.get(side, []))`
(src/persistence.py:102-108). -/
def depthRowsFor (id : Nat) (t : Tick) : List DepthRow :=
  let depth := t.depth.getD ⟨[], []⟩
  (depth.buy.enum.map
    (fun p => ⟨id, "buy", p.1, p.2.price, p.2.quantity, p.2.orders⟩)) ++
  (depth.sell.enum.map
    (fun p => ⟨id, "sell", p.1, p.2.price, p.2.quantity, p.2.orders⟩))

/-- The depth INSERTs of one tick, threading the statement counter `k`
consulted by the write-fault oracle; `Except.error` carries the
connection state where the `sqlite3.Error` was raised. -/
def insertDepths (faults : Nat → Bool) :
    SqliteConn → Nat → List DepthRow → Except SqliteConn (SqliteConn × Nat)
  | conn, k, [] => .ok (conn, k)
  | conn, k, r :: rs =>
    if faults k then .error conn
    else insertDepths faults
      { conn with pending_depths := conn.pending_depths ++ [r] } (k + 1) rs

/-- The `try:` body of `persist_ticks` (src/persistence.py:71-111) up to
the commit: per-tick INSERTs with the global statement counter `k` and
the fully-inserted-tick counter `persisted`.  `Except.error` carries the
connection state and `persisted` at the point a write raised. -/
def persistLoop (today : PyDate.Date) (nowStr : String) (faults : Nat → Bool) :
    SqliteConn → Nat → Nat → List Tick →
      Except (SqliteConn × Nat) (SqliteConn × Nat)
  | conn, _, persisted, [] => .ok (conn, persisted)
  | conn, k, persisted, t :: rest =>
    if faults k then .error (conn, persisted)
    else
      match insertDepths faults
          { conn with
            pending_ticks :=
              conn.pending_ticks ++ [tickRow today nowStr conn.next_id t]
            next_id := conn.next_id + 1 }
          (k + 1) (depthRowsFor conn.next_id t) with
      | .error c => .error (c, persisted)
      | .ok (c, k') => persistLoop today nowStr faults c k' (persisted + 1) rest

/-- `self._conn.rollback()`: drop the uncommitted statements. -/
def rollback (conn : SqliteConn) : SqliteConn :=
  { conn with pending_ticks := [], pending_depths := [] }

/-- `self._conn.commit()`: make the uncommitted statements durable. -/
def commit (conn : SqliteConn) : SqliteConn :=
  { conn with
    ticks := conn.ticks ++ conn.pending_ticks
    tick_depths := conn.tick_depths ++ conn.pending_depths
    pending_ticks := [], pending_depths := [] }

/-- `TickPersistence.persist_ticks` (src/persistence.py:63-115).
`commitFault` injects a `sqlite3.Error` raised by `self._conn.commit()`.
NOTE (faithful to the source): the `except sqlite3.Error` clause logs,
rolls back, and falls through to `return persisted` — on a write error
the function RETURNS NORMALLY with the pre-error count; no exception and
no failure marker reaches the caller. -/
def persist_ticks (today : PyDate.Date) (nowStr : String)
    (faults : Nat → Bool) (commitFault : Bool)
    (conn : SqliteConn) (ticks_data : List Tick) : SqliteConn × Nat :=
  if ticks_data.isEmpty then (conn, 0)
  else
    match persistLoop today nowStr faults conn 0 0 ticks_data with
    | .error (c, persisted) => (rollback c, persisted)
    | .ok (c, persisted) =>
      if commitFault then (rollback c, persisted)
      else (commit c, persisted)

/-- The `ticks` rows a committed batch adds, ids from `startId` on. -/
def batchTickRows (today : PyDate.Date) (nowStr : String) :
    Nat → List Tick → List TickRow
  | _, [] => []
  | startId, t :: rest =>
    tickRow today nowStr startId t :: batchTickRows today nowStr (startId + 1) rest

/-- The `tick_depths` rows a committed batch adds. -/
def batchDepthRows : Nat → List Tick → List DepthRow
  | _, [] => []
  | startId, t :: rest => depthRowsFor startId t ++ batchDepthRows (startId + 1) rest

end TickPersistence

namespace TickReceiver

/-- `TickReceiver._extract_date` (src/receiver.py:326-335), with `today`
the ambient `date.today()`; the `try/except` makes it total. -/
def extract_date (today : PyDate.Date) (ts_str : String) : String :=
  if ts_str ≠ "" then
    match PyDate.fromisoformat ts_str with
    | some d => PyDate.formatDate d
    | none => PyDate.formatDate today
  else PyDate.formatDate today

/-- The `"data"` field of a stream entry as `_process_entry` sees it:
absent/empty (`if not raw_data: return`), unparsable (`json.loads`
raises), or a well-formed serialized tick. -/
inductive Payload where
  | empty
  | malformed
  | tick (t : Tick)
  deriving DecidableEq, Repr

/-- Receiver state touched by the consume loop: the processed counter and
the persist buffer (src/receiver.py:52-54). -/
structure RecvState where
  ticks_processed : Nat
  pending_persist_buffer : List Tick
  deriving DecidableEq, Repr

/-- `TickReceiver._process_entry` (src/receiver.py:163-194): skip an empty
payload, raise on unparsable JSON, else stamp `received_at`, bump the
counter, default the symbol to `TOKEN_<token>` (token defaulting to 0),
and append to the persist buffer under the lock.  `_store_in_redis` only
writes to external Redis and swallows `redis.RedisError`
(src/receiver.py:216-261); it changes no receiver state and is not
modelled. -/
def process_entry (now : String) (st : RecvState) (p : Payload) :
    Except Unit RecvState :=
  match p with
  | .empty => .ok st
  | .malformed => .error ()
  | .tick t =>
    let t := { t with received_at := some now }
    let token := t.instrument_token.getD 0
    let tradingsymbol := t.tradingsymbol.getD ("TOKEN_" ++ toString token)
    let t := { t with tradingsymbol := some tradingsymbol }
    .ok { ticks_processed := st.ticks_processed + 1
          pending_persist_buffer := st.pending_persist_buffer ++ [t] }

/-- Observable actions of the consume loop's per-entry handling. -/
inductive ConsumeEv where
  | procOk (entry_id : Nat)
  | procFail (entry_id : Nat)
  | ack (entry_id : Nat)
  deriving DecidableEq, Repr

/-- The per-batch inner loop of `_consume_loop` (src/receiver.py:136-148):
`try: _process_entry except Exception: log`, then always
`xack(stream, group, entry_id)`. -/
def consumeBatch (now : String) : RecvState → List (Nat × Payload) →
    RecvState × List ConsumeEv
  | st, [] => (st, [])
  | st, (eid, p) :: rest =>
    let step :=
      match process_entry now st p with
      | .ok s => (s, ConsumeEv.procOk eid)
      | .error _ => (st, ConsumeEv.procFail eid)
    let next := consumeBatch now step.1 rest
    (next.1, step.2 :: ConsumeEv.ack eid :: next.2)

/-- The processing-attempt event the loop logs for one entry: `procFail`
exactly when `_process_entry` raises (unparsable payload), `procOk`
otherwise. -/
def attemptEv (eid : Nat) (p : Payload) : ConsumeEv :=
  match p with
  | .malformed => ConsumeEv.procFail eid
  | _ => ConsumeEv.procOk eid

/-- One post-sleep iteration of `_periodic_persist`
(src/receiver.py:276-294): swap the buffer out under the lock, call the
writer, and on a raised exception (`Except.error`) prepend the batch to
the current buffer.  `arrivals` are the ticks the consume loop appends
between the swap and the requeue. -/
def flushCycle (writer : List Tick → Except Unit Nat)
    (buffer arrivals : List Tick) : List Tick :=
  if buffer.isEmpty then buffer ++ arrivals
  else
    match writer buffer with
    | .ok _ => arrivals
    | .error _ => buffer ++ arrivals

end TickReceiver

/-! ## Lemmas and claim theorems -/

namespace InstrumentManager

lemma length_appendAt (j : Nat) (t : Int) (buckets : List (List Int)) :
    (appendAt j t buckets).length = buckets.length := by
  simp [appendAt]

lemma getD_appendAt (j k : Nat) (t : Int) (buckets : List (List Int))
    (hk : k < buckets.length) :
    (appendAt j t buckets).getD k [] =
      if j = k then buckets.getD k [] ++ [t] else buckets.getD k [] := by
  rcases eq_or_ne j k with h | h
  · subst h
    simp only [appendAt, if_pos rfl]
    rw [List.getD_eq_getElem _ _ (by simpa [appendAt] using hk)]
    rw [List.getElem_set_self]
    simp
  · simp only [appendAt, if_neg h]
    rw [List.getD_eq_getElem _ _ (by simpa using hk),
      List.getD_eq_getElem _ _ hk]
    rw [List.getElem_set_ne h]

lemma length_fillBuckets (n : Nat) (ts : List Int) :
    ∀ (i : Nat) (buckets : List (List Int)),
      (fillBuckets n i ts buckets).length = buckets.length := by
  induction ts with
  | nil => intro i buckets; rfl
  | cons t ts ih =>
    intro i buckets
    rw [fillBuckets, ih, length_appendAt]

lemma fillBuckets_getD (n : Nat) (ts : List Int) :
    ∀ (i : Nat) (buckets : List (List Int)) (j : Nat), j < buckets.length →
      (fillBuckets n i ts buckets).getD j [] =
        buckets.getD j [] ++ specBucket n i ts j := by
  induction ts with
  | nil => intro i buckets j _; simp [fillBuckets, specBucket]
  | cons t ts ih =>
    intro i buckets j hj
    rw [fillBuckets, ih (i + 1) _ j (by rw [length_appendAt]; exact hj)]
    rw [getD_appendAt _ _ _ _ hj, specBucket]
    rcases eq_or_ne (i % n) j with h | h
    · simp [h]
    · simp [h]

lemma mem_specBucket (n : Nat) (ts : List Int) :
    ∀ (i j : Nat) (x : Int),
      x ∈ specBucket n i ts j ↔
        ∃ k, ∃ hk : k < ts.length, ts.get ⟨k, hk⟩ = x ∧ (i + k) % n = j := by
  induction ts with
  | nil =>
    intro i j x
    simp [specBucket]
  | cons t ts ih =>
    intro i j x
    rw [specBucket]
    constructor
    · intro hx
      rcases List.mem_append.mp hx with hx | hx
      · rcases eq_or_ne (i % n) j with h | h
        · refine ⟨0, by simp, ?_, by simpa using h⟩
          simp only [h, if_pos rfl] at hx
          simpa using (List.mem_singleton.mp hx).symm
        · simp [h] at hx
      · rcases (ih (i + 1) j x).mp hx with ⟨k, hk, hget, hmod⟩
        refine ⟨k + 1, by simpa using Nat.succ_lt_succ hk, by simpa using hget, ?_⟩
        rw [show i + (k + 1) = i + 1 + k by omega]
        exact hmod
    · rintro ⟨k, hk, hget, hmod⟩
      cases k with
      | zero =>
        apply List.mem_append.mpr
        left
        have h : i % n = j := by simpa using hmod
        simp only [h, if_pos rfl]
        simpa using hget.symm
      | succ k' =>
        apply List.mem_append.mpr
        right
        refine (ih (i + 1) j x).mpr ⟨k', by simpa using Nat.lt_of_succ_lt_succ hk, ?_, ?_⟩
        · simpa using hget
        · rw [show i + 1 + k' = i + (k' + 1) by omega]; exact hmod

lemma getD_replicate_nil (N j : Nat) :
    (List.replicate N ([] : List Int)).getD j [] = [] := by
  rcases lt_or_ge j N with h | h
  · rw [List.getD_eq_getElem _ _ (by simpa using h)]
    simp
  · rw [List.getD_eq_default _ _ (by simpa using h)]

lemma distribute_tokens_buckets (instruments : List Instrument) (N : Nat)
    (h1 : 1 ≤ N) (h3 : N ≤ 3)
    (hne : ¬ (instruments.map (fun i => i.instrument_token)).isEmpty) :
    distribute_tokens instruments N =
      some (fillBuckets N 0 (instruments.map (fun i => i.instrument_token))
        (List.replicate N [])) := by
  have hn : min N 3 = N := Nat.min_eq_left h3
  simp only [distribute_tokens, hn]
  rw [if_neg hne, if_neg (by omega)]

/-- C4 (amended: socket count between 1 and 3): for every list of
instruments `T` with distinct tokens and every socket count `1 ≤ N ≤ 3`,
`InstrumentManager.distribute_tokens T N` returns exactly `N` lists whose
union is the set of tokens of `T` and whose pairwise intersections are
empty. -/
theorem distribute_tokens_partition (instruments : List Instrument) (N : Nat)
    (h1 : 1 ≤ N) (h3 : N ≤ 3)
    (hnd : (instruments.map (fun i => i.instrument_token)).Nodup) :
    ∃ bs, distribute_tokens instruments N = some bs ∧
      bs.length = N ∧
      (∀ x : Int, (∃ b ∈ bs, x ∈ b) ↔
        x ∈ instruments.map (fun i => i.instrument_token)) ∧
      (∀ j1 j2 : Nat, j1 < N → j2 < N → j1 ≠ j2 →
        ∀ x : Int, x ∈ bs.getD j1 [] → x ∉ bs.getD j2 []) := by
  set tokens := instruments.map (fun i => i.instrument_token) with htok
  by_cases hempty : tokens.isEmpty
  · refine ⟨List.replicate (min N 3) [], ?_, ?_, ?_, ?_⟩
    · simp only [distribute_tokens, ← htok]
      rw [if_pos hempty]
    · simpa using Nat.min_eq_left h3
    · intro x
      constructor
      · rintro ⟨b, hb, hx⟩
        rw [List.eq_of_mem_replicate hb] at hx
        exact absurd hx (List.not_mem_nil x)
      · intro hx
        rw [List.isEmpty_iff.mp hempty] at hx
        exact absurd hx (List.not_mem_nil x)
    · intro j1 j2 _ _ _ x hx
      rw [Nat.min_eq_left h3, getD_replicate_nil] at hx
      exact absurd hx (List.not_mem_nil x)
  · have hbs := distribute_tokens_buckets instruments N h1 h3 (htok ▸ hempty)
    set bs := fillBuckets N 0 tokens (List.replicate N []) with hbsdef
    have hlen : bs.length = N := by
      rw [hbsdef, length_fillBuckets]; simp
    have hget : ∀ j, j < N → bs.getD j [] = specBucket N 0 tokens j := by
      intro j hj
      rw [hbsdef, fillBuckets_getD _ _ _ _ _ (by simpa using hj),
        getD_replicate_nil]
      simp
    refine ⟨bs, by rw [hbsdef, htok]; exact hbs, hlen, ?_, ?_⟩
    · intro x
      constructor
      · rintro ⟨b, hb, hx⟩
        rcases List.mem_iff_getElem.mp hb with ⟨j, hj, hbj⟩
        have hj' : j < N := hlen ▸ hj
        have : x ∈ specBucket N 0 tokens j := by
          rw [← hget j hj']
          rw [List.getD_eq_getElem _ _ hj, hbj]
          exact hx
        rcases (mem_specBucket N tokens 0 j x).mp this with ⟨k, hk, hkx, _⟩
        exact hkx ▸ List.get_mem tokens k hk
      · intro hx
        rcases List.mem_iff_get.mp hx with ⟨⟨k, hk⟩, hkx⟩
        have hj : k % N < N := Nat.mod_lt _ (by omega)
        refine ⟨bs.getD (k % N) [], ?_, ?_⟩
        · rw [List.getD_eq_getElem _ _ (hlen ▸ hj)]
          exact List.getElem_mem _
        · rw [hget _ hj]
          exact (mem_specBucket N tokens 0 (k % N) x).mpr
            ⟨k, hk, hkx, by simp⟩
    · intro j1 j2 hj1 hj2 hne x hx1 hx2
      rw [hget _ hj1] at hx1
      rw [hget _ hj2] at hx2
      rcases (mem_specBucket N tokens 0 j1 x).mp hx1 with ⟨k1, hk1, hget1, hmod1⟩
      rcases (mem_specBucket N tokens 0 j2 x).mp hx2 with ⟨k2, hk2, hget2, hmod2⟩
      have hkk : k1 = k2 := by
        have := (List.Nodup.get_inj_iff hnd
          (i := ⟨k1, hk1⟩) (j := ⟨k2, hk2⟩)).mp (by rw [hget1, hget2])
        simpa using congrArg Fin.val this
      apply hne
      rw [← hmod1, ← hmod2, hkk]

/-- C4 counterexample: with a non-empty instrument list and socket count 0
(a socket count `≤ 3`), the Python code raises `ZeroDivisionError` at
`buckets[i % num_sockets]` (embedded as `none`), so `distribute_tokens`
does not return `N` lists as the claim requires for every `N ≤ 3`. -/
theorem distribute_tokens_zero_sockets_counterexample :
    distribute_tokens [⟨256265, "NIFTY 50"⟩] 0 = none := by rfl

/-- Witness for `distribute_tokens_partition`: four distinct tokens over
three sockets. -/
theorem distribute_tokens_partition_witness :
    ∃ bs, distribute_tokens
        [⟨1, "A"⟩, ⟨2, "B"⟩, ⟨3, "C"⟩, ⟨4, "D"⟩] 3 = some bs ∧
      bs.length = 3 ∧
      (∀ x : Int, (∃ b ∈ bs, x ∈ b) ↔
        x ∈ ([⟨1, "A"⟩, ⟨2, "B"⟩, ⟨3, "C"⟩, ⟨4, "D"⟩] :
          List Instrument).map (fun i => i.instrument_token)) ∧
      (∀ j1 j2 : Nat, j1 < 3 → j2 < 3 → j1 ≠ j2 →
        ∀ x : Int, x ∈ bs.getD j1 [] → x ∉ bs.getD j2 []) :=
  distribute_tokens_partition [⟨1, "A"⟩, ⟨2, "B"⟩, ⟨3, "C"⟩, ⟨4, "D"⟩] 3
    (by decide) (by decide) (by decide)

end InstrumentManager

namespace RedisPublisher

/-- Successful publish appends every tick to the stream in order. -/
lemma publish_ticks_ok (pub : PubState) (ticks : List Tick)
    (hc : pub.client.isSome) :
    (publish_ticks pub ticks false).stream = pub.stream ++ ticks := by
  rcases pub with ⟨c, s⟩
  cases c with
  | none => simp at hc
  | some u => simp [publish_ticks, publishTicksTry]

/-- C10: calling `publish_ticks` before `connect` (client `None`) returns
without raising and appends nothing; and a `redis.RedisError` raised by
the pipeline (`fault = true`) is caught inside `publish_ticks`
(`publishTicksTry` errors, yet the call returns the state unchanged) and
never propagates. -/
theorem publish_ticks_error_handling (pub : PubState) (ticks : List Tick) :
    (∀ fault : Bool, pub.client = none → publish_ticks pub ticks fault = pub) ∧
    (publishTicksTry true pub.stream ticks = Except.error () ∧
      publish_ticks pub ticks true = pub) := by
  refine ⟨?_, rfl, ?_⟩
  · intro fault h
    simp [publish_ticks, h]
  · rcases pub with ⟨c, s⟩
    cases c <;> simp [publish_ticks, publishTicksTry]

/-- Witness for `publish_ticks_error_handling`: a not-yet-connected
publisher and a faulting one. -/
theorem publish_ticks_error_handling_witness :
    (∀ fault : Bool,
      (⟨none, []⟩ : PubState).client = none →
        publish_ticks ⟨none, []⟩ [Tick.empty] fault = ⟨none, []⟩) ∧
    (publishTicksTry true (⟨none, []⟩ : PubState).stream [Tick.empty] =
        Except.error () ∧
      publish_ticks ⟨none, []⟩ [Tick.empty] true = ⟨none, []⟩) :=
  publish_ticks_error_handling ⟨none, []⟩ [Tick.empty]

end RedisPublisher

namespace SocketConnection

/-- C6 counterexample: a tick whose `instrument_token` key is present with
value `0` — a token absent from an empty token map — is enriched to
`"UNKNOWN"`, not `"TOKEN_0"`: the fallback
`f"TOKEN_{token}" if token else "UNKNOWN"` tests Python truthiness and
`0` is falsy, so the claim's "present but unmapped token gets
`TOKEN_<n>`" fails at `n = 0`. -/
theorem enrichTick_token_zero_counterexample :
    (enrichTick [] { Tick.empty with instrument_token := some 0 }).tradingsymbol
        = some "UNKNOWN" ∧
      some "UNKNOWN" ≠ some ("TOKEN_" ++ toString (0 : Int)) := by
  refine ⟨rfl, by decide⟩

/-- C6 (amended: token present and non-zero): a tick whose token is
present, non-zero, and absent from the token map is enriched with the
synthesized symbol `TOKEN_<n>` and still forwarded to the publisher with
the rest of its batch; no tick is dropped for missing metadata. -/
theorem on_ticks_missing_metadata (m : List (Int × SymbolInfo)) (now : Nat)
    (st : ConnState) (pub : RedisPublisher.PubState) (ticks : List Tick)
    (t : Tick) (n : Int)
    (htok : t.instrument_token = some n) (hn : n ≠ 0)
    (habs : lookupInfo m (some n) = none)
    (hmem : t ∈ ticks) (hconn : pub.client.isSome) :
    (enrichTick m t).tradingsymbol = some ("TOKEN_" ++ toString n) ∧
    enrichTick m t ∈ (on_ticks m now st pub ticks false).2.stream := by
  constructor
  · simp [enrichTick, htok, habs, hn]
  · have hpub : (on_ticks m now st pub ticks false).2.stream =
        pub.stream ++ ticks.map (enrichTick m) := by
      simp only [on_ticks]
      exact RedisPublisher.publish_ticks_ok pub (ticks.map (enrichTick m)) hconn
    rw [hpub]
    exact List.mem_append_right _ (List.mem_map_of_mem _ hmem)

/-- Witness for `on_ticks_missing_metadata`: the spec's scenario — an
unmapped token `12345` becomes `TOKEN_12345` and is forwarded. -/
theorem on_ticks_missing_metadata_witness :
    (enrichTick [] { Tick.empty with instrument_token := some 12345 }).tradingsymbol
        = some ("TOKEN_" ++ toString (12345 : Int)) ∧
    enrichTick [] { Tick.empty with instrument_token := some 12345 } ∈
      (on_ticks [] 7 ⟨0, [], 0, true, 0⟩ ⟨some (), []⟩
        [{ Tick.empty with instrument_token := some 12345 }] false).2.stream :=
  on_ticks_missing_metadata [] 7 ⟨0, [], 0, true, 0⟩ ⟨some (), []⟩
    [{ Tick.empty with instrument_token := some 12345 }]
    { Tick.empty with instrument_token := some 12345 } 12345
    rfl (by decide) rfl (by simp) rfl

end SocketConnection

namespace MultiSocketConnector

lemma startLoop_spec (now : Nat) (bs : List (List Int)) :
    ∀ idx : Nat,
      startLoop now (idx + bs.length) idx bs =
        ((bs.enumFrom idx).map (fun p => newSocket p.1 p.2 now),
         List.intersperse StartEv.sleep
           ((bs.enumFrom idx).map (fun p => StartEv.create p.1 p.2))) := by
  induction bs with
  | nil => intro idx; rfl
  | cons b rest ih =>
    intro idx
    rw [startLoop]
    have harg : idx + (b :: rest).length = (idx + 1) + rest.length := by
      simp; omega
    rw [harg, ih (idx + 1)]
    cases rest with
    | nil =>
      simp [List.enumFrom]
    | cons r rs =>
      have hlt : idx < (idx + 1) + (r :: rs).length - 1 := by simp; omega
      rw [if_pos hlt]
      simp [List.enumFrom, List.intersperse]

/-- C9: `all_connected` is `all(...)` over the socket list, hence `True`
on the empty conjunction: a fresh connector (`__init__` sets
`sockets = []`), a stopped one (`stop` clears the list), and any
connector with no sockets all report "all connected". -/
theorem all_connected_empty_true :
    (∀ n : Nat, all_connected (mkConnector n) = true) ∧
    (∀ c : MSC, all_connected (stop c) = true) ∧
    (∀ c : MSC, c.sockets = [] → all_connected c = true) := by
  refine ⟨fun n => rfl, fun c => rfl, fun c h => ?_⟩
  simp [all_connected, h]

/-- Witness for `all_connected_empty_true`: a concrete never-started and
a concrete stopped connector. -/
theorem all_connected_empty_true_witness :
    all_connected (mkConnector 3) = true ∧
    all_connected (stop ⟨2, [⟨0, [1], 5, false, 9⟩]⟩) = true ∧
    all_connected ⟨1, []⟩ = true :=
  ⟨all_connected_empty_true.1 3,
   all_connected_empty_true.2.1 ⟨2, [⟨0, [1], 5, false, 9⟩]⟩,
   all_connected_empty_true.2.2 ⟨1, []⟩ rfl⟩

/-- C5 counterexample: `start` enforces no cap — four non-empty buckets
yield four connections, even on a connector whose `num_sockets` was
capped to 3 by `__init__`. -/
theorem start_four_buckets_counterexample :
    (start (mkConnector 3) 0 [[1], [2], [3], [4]]).1.sockets.length = 4 := by
  rfl

/-- C5 (amended: the 3-cap is not enforced by `start` itself): `start`
creates exactly one `SocketConnection` per non-empty bucket, in order,
each owning its bucket's tokens, with the fixed `time.sleep(1)` between
consecutive starts; the connection count equals the number of non-empty
buckets, so it is at most 3 exactly when at most 3 non-empty buckets are
passed (as `distribute_tokens` produces). -/
theorem start_one_socket_per_nonempty_bucket (c : MSC) (now : Nat)
    (token_buckets : List (List Int)) :
    (start c now token_buckets).1.sockets =
      ((token_buckets.filter (fun b => decide (0 < b.length))).enum.map
        (fun p => newSocket p.1 p.2 now)) ∧
    (start c now token_buckets).2 =
      List.intersperse StartEv.sleep
        ((token_buckets.filter (fun b => decide (0 < b.length))).enum.map
          (fun p => StartEv.create p.1 p.2)) ∧
    (start c now token_buckets).1.sockets.length =
      (token_buckets.filter (fun b => decide (0 < b.length))).length ∧
    ((token_buckets.filter (fun b => decide (0 < b.length))).length ≤ 3 →
      (start c now token_buckets).1.sockets.length ≤ 3) := by
  set active := token_buckets.filter (fun b => decide (0 < b.length)) with hact
  have hloop := startLoop_spec now active 0
  rw [Nat.zero_add] at hloop
  by_cases h : active.isEmpty
  · have hnil : active = [] := List.isEmpty_iff.mp h
    refine ⟨?_, ?_, ?_, ?_⟩ <;>
      simp [start, ← hact, h, hnil]
  · refine ⟨?_, ?_, ?_, ?_⟩ <;>
      simp [start, ← hact, h, hloop, List.enum]

/-- Witness for `start_one_socket_per_nonempty_bucket`: three buckets, one
of them empty. -/
theorem start_one_socket_per_nonempty_bucket_witness :
    (start (mkConnector 3) 0 [[1], [], [2]]).1.sockets =
      ((([[1], [], [2]] : List (List Int)).filter
          (fun b => decide (0 < b.length))).enum.map
        (fun p => newSocket p.1 p.2 0)) ∧
    (start (mkConnector 3) 0 [[1], [], [2]]).2 =
      List.intersperse StartEv.sleep
        ((([[1], [], [2]] : List (List Int)).filter
            (fun b => decide (0 < b.length))).enum.map
          (fun p => StartEv.create p.1 p.2)) ∧
    (start (mkConnector 3) 0 [[1], [], [2]]).1.sockets.length =
      (([[1], [], [2]] : List (List Int)).filter
        (fun b => decide (0 < b.length))).length ∧
    ((([[1], [], [2]] : List (List Int)).filter
        (fun b => decide (0 < b.length))).length ≤ 3 →
      (start (mkConnector 3) 0 [[1], [], [2]]).1.sockets.length ≤ 3) :=
  start_one_socket_per_nonempty_bucket (mkConnector 3) 0 [[1], [], [2]]

end MultiSocketConnector

namespace TickReceiver

/-- C8: for every input string, the trade-date derivations
`TickReceiver._extract_date` and `TickPersistence._trade_date` agree, fall
back to the current calendar date in ISO form whenever the timestamp is
empty or unparsable (they are total functions — the `try/except` means
they never raise), and return the timestamp's own `YYYY-MM-DD` when it
parses. -/
theorem extract_date_total_fallback (today : PyDate.Date) (s : String) :
    TickPersistence.trade_date today s = extract_date today s ∧
    ((s = "" ∨ PyDate.fromisoformat s = none) →
      extract_date today s = PyDate.formatDate today) ∧
    (∀ d : PyDate.Date, PyDate.fromisoformat s = some d →
      extract_date today s = PyDate.formatDate d) := by
  refine ⟨rfl, ?_, ?_⟩
  · rintro (h | h)
    · simp [extract_date, h]
    · by_cases hs : s = ""
      · simp [extract_date, hs]
      · simp [extract_date, hs, h]
  · intro d hd
    have hs : s ≠ "" := by
      intro he
      rw [he] at hd
      have : PyDate.fromisoformat "" = none := rfl
      rw [this] at hd
      exact Option.noConfusion hd
    simp [extract_date, hs, hd]

/-- Witness for `extract_date_total_fallback`: a well-formed timestamp, an
empty one, and an unparsable one. -/
theorem extract_date_total_fallback_witness :
    PyDate.fromisoformat "2024-01-01T09:15:00" = some ⟨2024, 1, 1⟩ ∧
    extract_date ⟨2026, 10, 12⟩ "2024-01-01T09:15:00" =
      PyDate.formatDate ⟨2024, 1, 1⟩ ∧
    PyDate.formatDate ⟨2024, 1, 1⟩ = "2024-01-01" ∧
    extract_date ⟨2026, 10, 12⟩ "" = PyDate.formatDate ⟨2026, 10, 12⟩ ∧
    extract_date ⟨2026, 10, 12⟩ "not-a-timestamp" =
      PyDate.formatDate ⟨2026, 10, 12⟩ :=
  ⟨rfl,
   (extract_date_total_fallback ⟨2026, 10, 12⟩ "2024-01-01T09:15:00").2.2
     ⟨2024, 1, 1⟩ rfl,
   rfl,
   (extract_date_total_fallback ⟨2026, 10, 12⟩ "").2.1 (Or.inl rfl),
   (extract_date_total_fallback ⟨2026, 10, 12⟩ "not-a-timestamp").2.1
     (Or.inr rfl)⟩

/-- C3: when the writer call raises on batch `B`, the flush loop prepends
`B` to the current buffer: the next buffer is exactly `B ++ arrivals`, so
every tick of `B` is retained, and all of `B` precedes every tick
buffered after `B` was swapped out. -/
theorem flushCycle_requeue_prepends (writer : List Tick → Except Unit Nat)
    (B arrivals : List Tick) (hB : B ≠ [])
    (hfail : writer B = Except.error ()) :
    flushCycle writer B arrivals = B ++ arrivals ∧
    (flushCycle writer B arrivals).take B.length = B ∧
    (flushCycle writer B arrivals).drop B.length = arrivals ∧
    (∀ t ∈ B, t ∈ flushCycle writer B arrivals) := by
  have h : flushCycle writer B arrivals = B ++ arrivals := by
    have hne : B.isEmpty = false := by
      cases B with
      | nil => exact absurd rfl hB
      | cons a l => rfl
    simp [flushCycle, hne, hfail]
  refine ⟨h, ?_, ?_, ?_⟩ <;> rw [h]
  · exact List.take_left ..
  · exact List.drop_left ..
  · intro t ht
    exact List.mem_append_left _ ht

/-- Witness for `flushCycle_requeue_prepends`: a failing writer on a
one-tick batch while one tick arrived during the flush. -/
theorem flushCycle_requeue_prepends_witness :
    flushCycle (fun _ => Except.error ()) [Tick.empty]
        [{ Tick.empty with instrument_token := some 2 }] =
      [Tick.empty] ++ [{ Tick.empty with instrument_token := some 2 }] ∧
    (flushCycle (fun _ => Except.error ()) [Tick.empty]
        [{ Tick.empty with instrument_token := some 2 }]).take 1 = [Tick.empty] ∧
    (flushCycle (fun _ => Except.error ()) [Tick.empty]
        [{ Tick.empty with instrument_token := some 2 }]).drop 1 =
      [{ Tick.empty with instrument_token := some 2 }] ∧
    (∀ t ∈ [Tick.empty],
      t ∈ flushCycle (fun _ => Except.error ()) [Tick.empty]
        [{ Tick.empty with instrument_token := some 2 }]) := by
  have h := flushCycle_requeue_prepends (fun _ => Except.error ())
    [Tick.empty] [{ Tick.empty with instrument_token := some 2 }]
    (by simp) rfl
  simpa using h

/-- C7: in the consume loop, the acknowledgment of every delivered entry
comes immediately after that entry's processing attempt — `procOk` on
success, `procFail` when `_process_entry` raises (which it does exactly
on an unparsable payload) — and the loop proceeds through the whole
batch, so a failing entry is still acknowledged and never stalls the
loop. -/
theorem consume_ack_after_processing (now : String) (st : RecvState)
    (entries : List (Nat × Payload)) :
    (consumeBatch now st entries).2 =
      entries.flatMap (fun e => [attemptEv e.1 e.2, ConsumeEv.ack e.1]) ∧
    (∀ e ∈ entries, ConsumeEv.ack e.1 ∈ (consumeBatch now st entries).2) ∧
    (∀ (st' : RecvState) (p : Payload),
      process_entry now st' p = Except.error () ↔ p = Payload.malformed) := by
  have htrace : ∀ (st0 : RecvState),
      (consumeBatch now st0 entries).2 =
        entries.flatMap (fun e => [attemptEv e.1 e.2, ConsumeEv.ack e.1]) := by
    induction entries with
    | nil => intro st0; rfl
    | cons e rest ih =>
      intro st0
      obtain ⟨eid, p⟩ := e
      cases p <;> simp [consumeBatch, process_entry, attemptEv, ih]
  refine ⟨htrace st, ?_, ?_⟩
  · intro e he
    rw [htrace st]
    exact List.mem_flatMap.mpr ⟨e, he, by simp⟩
  · intro st' p
    cases p <;> simp [process_entry]

/-- Witness for `consume_ack_after_processing`: a batch where the second
entry's payload is unparsable; it is still acknowledged. -/
theorem consume_ack_after_processing_witness :
    (consumeBatch "T" ⟨0, []⟩
        [(1, Payload.tick Tick.empty), (2, Payload.malformed)]).2 =
      ([(1, Payload.tick Tick.empty), (2, Payload.malformed)]).flatMap
        (fun e => [attemptEv e.1 e.2, ConsumeEv.ack e.1]) ∧
    ConsumeEv.ack 2 ∈ (consumeBatch "T" ⟨0, []⟩
        [(1, Payload.tick Tick.empty), (2, Payload.malformed)]).2 ∧
    (process_entry "T" ⟨0, []⟩ Payload.malformed = Except.error () ↔
      Payload.malformed = Payload.malformed) :=
  ⟨(consume_ack_after_processing "T" ⟨0, []⟩
      [(1, Payload.tick Tick.empty), (2, Payload.malformed)]).1,
   (consume_ack_after_processing "T" ⟨0, []⟩
      [(1, Payload.tick Tick.empty), (2, Payload.malformed)]).2.1
     (2, Payload.malformed) (by simp),
   (consume_ack_after_processing "T" ⟨0, []⟩
      [(1, Payload.tick Tick.empty), (2, Payload.malformed)]).2.2
     ⟨0, []⟩ Payload.malformed⟩

end TickReceiver

namespace TickPersistence

lemma insertDepths_error (faults : Nat → Bool) (rs : List DepthRow) :
    ∀ (conn : SqliteConn) (k : Nat) (c : SqliteConn),
      insertDepths faults conn k rs = .error c →
      c.ticks = conn.ticks ∧ c.tick_depths = conn.tick_depths := by
  induction rs with
  | nil =>
    intro conn k c h
    exact absurd h (by simp [insertDepths])
  | cons r rs ih =>
    intro conn k c h
    rw [insertDepths] at h
    by_cases hf : faults k
    · rw [if_pos hf] at h
      simp only [Except.error.injEq] at h
      subst h
      exact ⟨rfl, rfl⟩
    · rw [if_neg hf] at h
      simpa using ih _ _ _ h

lemma insertDepths_ok (faults : Nat → Bool) (rs : List DepthRow) :
    ∀ (conn : SqliteConn) (k : Nat) (c : SqliteConn) (k' : Nat),
      insertDepths faults conn k rs = .ok (c, k') →
      c.ticks = conn.ticks ∧ c.tick_depths = conn.tick_depths ∧
      c.pending_ticks = conn.pending_ticks ∧
      c.pending_depths = conn.pending_depths ++ rs ∧
      c.next_id = conn.next_id := by
  induction rs with
  | nil =>
    intro conn k c k' h
    rw [insertDepths] at h
    simp only [Except.ok.injEq, Prod.mk.injEq] at h
    obtain ⟨h1, _⟩ := h
    subst h1
    simp
  | cons r rs ih =>
    intro conn k c k' h
    rw [insertDepths] at h
    by_cases hf : faults k
    · rw [if_pos hf] at h
      exact absurd h (by simp)
    · rw [if_neg hf] at h
      have := ih _ _ _ _ h
      simpa [List.append_assoc] using this

lemma insertDepths_nofault (faults : Nat → Bool) (hf : ∀ j, faults j = false)
    (rs : List DepthRow) :
    ∀ (conn : SqliteConn) (k : Nat),
      ∃ ck, insertDepths faults conn k rs = .ok ck := by
  induction rs with
  | nil => intro conn k; exact ⟨(conn, k), rfl⟩
  | cons r rs ih =>
    intro conn k
    rw [insertDepths, if_neg (by simp [hf k])]
    exact ih _ (k + 1)

lemma persistLoop_error (today : PyDate.Date) (nowStr : String)
    (faults : Nat → Bool) (ticks : List Tick) :
    ∀ (conn : SqliteConn) (k persisted : Nat) (c : SqliteConn) (n : Nat),
      persistLoop today nowStr faults conn k persisted ticks = .error (c, n) →
      c.ticks = conn.ticks ∧ c.tick_depths = conn.tick_depths := by
  induction ticks with
  | nil =>
    intro conn k per c n h
    exact absurd h (by simp [persistLoop])
  | cons t ts ih =>
    intro conn k per c n h
    rw [persistLoop] at h
    by_cases hf : faults k
    · rw [if_pos hf] at h
      simp only [Except.error.injEq, Prod.mk.injEq] at h
      obtain ⟨h1, _⟩ := h
      subst h1
      exact ⟨rfl, rfl⟩
    · rw [if_neg hf] at h
      rcases hid : insertDepths faults
          { conn with
            pending_ticks :=
              conn.pending_ticks ++ [tickRow today nowStr conn.next_id t]
            next_id := conn.next_id + 1 }
          (k + 1) (depthRowsFor conn.next_id t) with cErr | ck
      · rw [hid] at h
        simp only [Except.error.injEq, Prod.mk.injEq] at h
        obtain ⟨h1, _⟩ := h
        subst h1
        simpa using insertDepths_error faults _ _ _ _ hid
      · rw [hid] at h
        have hins := insertDepths_ok faults _ _ _ _ _ hid
        have hrec := ih _ _ _ _ _ h
        constructor
        · rw [hrec.1, hins.1]
        · rw [hrec.2, hins.2.1]

lemma persistLoop_ok (today : PyDate.Date) (nowStr : String)
    (faults : Nat → Bool) (ticks : List Tick) :
    ∀ (conn : SqliteConn) (k persisted : Nat) (c : SqliteConn) (n : Nat),
      persistLoop today nowStr faults conn k persisted ticks = .ok (c, n) →
      c.ticks = conn.ticks ∧ c.tick_depths = conn.tick_depths ∧
      c.pending_ticks =
        conn.pending_ticks ++ batchTickRows today nowStr conn.next_id ticks ∧
      c.pending_depths =
        conn.pending_depths ++ batchDepthRows conn.next_id ticks ∧
      c.next_id = conn.next_id + ticks.length ∧
      n = persisted + ticks.length := by
  induction ticks with
  | nil =>
    intro conn k per c n h
    rw [persistLoop] at h
    simp only [Except.ok.injEq, Prod.mk.injEq] at h
    obtain ⟨h1, h2⟩ := h
    subst h1
    subst h2
    simp [batchTickRows, batchDepthRows]
  | cons t ts ih =>
    intro conn k per c n h
    rw [persistLoop] at h
    by_cases hf : faults k
    · rw [if_pos hf] at h
      exact absurd h (by simp)
    · rw [if_neg hf] at h
      rcases hid : insertDepths faults
          { conn with
            pending_ticks :=
              conn.pending_ticks ++ [tickRow today nowStr conn.next_id t]
            next_id := conn.next_id + 1 }
          (k + 1) (depthRowsFor conn.next_id t) with cErr | ck
      · rw [hid] at h
        exact absurd h (by simp)
      · obtain ⟨c2, k2⟩ := ck
        rw [hid] at h
        have hins := insertDepths_ok faults _ _ _ _ _ hid
        have hrec := ih _ _ _ _ _ h
        obtain ⟨hi1, hi2, hi3, hi4, hi5⟩ := hins
        obtain ⟨hr1, hr2, hr3, hr4, hr5, hr6⟩ := hrec
        simp only at hi1 hi2 hi3 hi4 hi5
        refine ⟨by rw [hr1, hi1], by rw [hr2, hi2], ?_, ?_, ?_, ?_⟩
        · rw [hr3, hi3, hi5]
          simp [batchTickRows, List.append_assoc]
        · rw [hr4, hi4, hi5]
          simp [batchDepthRows, List.append_assoc]
        · rw [hr5, hi5]
          simp
          omega
        · rw [hr6]
          simp
          omega

lemma persistLoop_nofault (today : PyDate.Date) (nowStr : String)
    (faults : Nat → Bool) (hf : ∀ j, faults j = false) (ticks : List Tick) :
    ∀ (conn : SqliteConn) (k persisted : Nat),
      ∃ cn, persistLoop today nowStr faults conn k persisted ticks = .ok cn := by
  induction ticks with
  | nil => intro conn k per; exact ⟨(conn, per), rfl⟩
  | cons t ts ih =>
    intro conn k per
    rw [persistLoop, if_neg (by simp [hf k])]
    obtain ⟨ck, hck⟩ := insertDepths_nofault faults hf
      (depthRowsFor conn.next_id t)
      { conn with
        pending_ticks :=
          conn.pending_ticks ++ [tickRow today nowStr conn.next_id t]
        next_id := conn.next_id + 1 }
      (k + 1)
    obtain ⟨c2, k2⟩ := ck
    rw [hck]
    exact ih c2 k2 (per + 1)

lemma length_batchTickRows (today : PyDate.Date) (nowStr : String) :
    ∀ (startId : Nat) (ts : List Tick),
      (batchTickRows today nowStr startId ts).length = ts.length := by
  intro s ts
  induction ts generalizing s with
  | nil => rfl
  | cons t ts ih => simp [batchTickRows, ih]

/-- C2: flush atomicity.  For every batch, every write-fault schedule and
any commit fault, starting from a connection with no open transaction:
either the committed `ticks` table grows by exactly `len(batch)` rows —
the batch's rows in order, with their associated `tick_depths` rows —
in the single commit, or (on any write error) the committed tables are
unchanged after the rollback; a partial batch is never committed.
Moreover a fault-free run always takes the first branch and returns
`len(batch)`. -/
theorem persist_ticks_atomic (today : PyDate.Date) (nowStr : String)
    (faults : Nat → Bool) (commitFault : Bool)
    (conn : SqliteConn) (batch : List Tick)
    (hpt : conn.pending_ticks = []) (hpd : conn.pending_depths = []) :
    (((persist_ticks today nowStr faults commitFault conn batch).1.ticks =
        conn.ticks ++ batchTickRows today nowStr conn.next_id batch ∧
      (persist_ticks today nowStr faults commitFault conn batch).1.tick_depths =
        conn.tick_depths ++ batchDepthRows conn.next_id batch ∧
      (persist_ticks today nowStr faults commitFault conn batch).1.ticks.length =
        conn.ticks.length + batch.length) ∨
     ((persist_ticks today nowStr faults commitFault conn batch).1.ticks =
        conn.ticks ∧
      (persist_ticks today nowStr faults commitFault conn batch).1.tick_depths =
        conn.tick_depths)) ∧
    ((∀ j, faults j = false) → commitFault = false →
      (persist_ticks today nowStr faults commitFault conn batch).1.ticks =
        conn.ticks ++ batchTickRows today nowStr conn.next_id batch ∧
      (persist_ticks today nowStr faults commitFault conn batch).2 =
        batch.length) := by
  by_cases hb : batch.isEmpty
  · have hnil : batch = [] := List.isEmpty_iff.mp hb
    subst hnil
    refine ⟨Or.inr (by simp [persist_ticks]), ?_⟩
    intro _ _
    simp [persist_ticks, batchTickRows]
  · rcases hrun : persistLoop today nowStr faults conn 0 0 batch with ⟨c, n⟩ | ⟨c, n⟩
    · have hcom := persistLoop_error today nowStr faults batch _ _ _ _ _ hrun
      have heq : persist_ticks today nowStr faults commitFault conn batch =
          (rollback c, n) := by
        simp [persist_ticks, hb, hrun]
      refine ⟨Or.inr (by rw [heq]; exact ⟨hcom.1, hcom.2⟩), ?_⟩
      intro hnf _
      obtain ⟨cn, hcn⟩ := persistLoop_nofault today nowStr faults hnf batch conn 0 0
      rw [hrun] at hcn
      exact absurd hcn (by simp)
    · have hok := persistLoop_ok today nowStr faults batch _ _ _ _ _ hrun
      obtain ⟨ho1, ho2, ho3, ho4, ho5, ho6⟩ := hok
      by_cases hcf : commitFault
      · have heq : persist_ticks today nowStr faults commitFault conn batch =
            (rollback c, n) := by
          simp [persist_ticks, hb, hrun, hcf]
        refine ⟨Or.inr (by rw [heq]; exact ⟨ho1, ho2⟩), ?_⟩
        intro _ hcf'
        rw [hcf'] at hcf
        simp at hcf
      · have heq : persist_ticks today nowStr faults commitFault conn batch =
            (commit c, n) := by
          simp [persist_ticks, hb, hrun, hcf]
        have hticks : (commit c).ticks =
            conn.ticks ++ batchTickRows today nowStr conn.next_id batch := by
          simp [commit, ho1, ho3, hpt]
        have hdepths : (commit c).tick_depths =
            conn.tick_depths ++ batchDepthRows conn.next_id batch := by
          simp [commit, ho2, ho4, hpd]
        have hlen : (commit c).ticks.length = conn.ticks.length + batch.length := by
          rw [hticks]
          simp [length_batchTickRows]
        exact ⟨Or.inl ⟨by rw [heq]; exact hticks, by rw [heq]; exact hdepths,
            by rw [heq]; exact hlen⟩,
          fun _ _ => ⟨by rw [heq]; exact hticks, by rw [heq]; simpa using ho6⟩⟩

/-- Witness for `persist_ticks_atomic`: a fault-free flush of one
quote-mode tick carrying two depth levels into an empty database. -/
theorem persist_ticks_atomic_witness :
    (((persist_ticks ⟨2024, 1, 1⟩ "2024-01-01T10:00:00" (fun _ => false) false
        ⟨[], [], [], [], 1⟩
        [{ Tick.empty with
            instrument_token := some 1
            tradingsymbol := some "X"
            depth := some ⟨[⟨some 10, some 1, some 1⟩], [⟨some 11, some 2, some 1⟩]⟩ }]).1.ticks =
        (⟨[], [], [], [], 1⟩ : SqliteConn).ticks ++
          batchTickRows ⟨2024, 1, 1⟩ "2024-01-01T10:00:00" 1
            [{ Tick.empty with
                instrument_token := some 1
                tradingsymbol := some "X"
                depth := some ⟨[⟨some 10, some 1, some 1⟩], [⟨some 11, some 2, some 1⟩]⟩ }] ∧
      (persist_ticks ⟨2024, 1, 1⟩ "2024-01-01T10:00:00" (fun _ => false) false
        ⟨[], [], [], [], 1⟩
        [{ Tick.empty with
            instrument_token := some 1
            tradingsymbol := some "X"
            depth := some ⟨[⟨some 10, some 1, some 1⟩], [⟨some 11, some 2, some 1⟩]⟩ }]).1.tick_depths =
        (⟨[], [], [], [], 1⟩ : SqliteConn).tick_depths ++
          batchDepthRows 1
            [{ Tick.empty with
                instrument_token := some 1
                tradingsymbol := some "X"
                depth := some ⟨[⟨some 10, some 1, some 1⟩], [⟨some 11, some 2, some 1⟩]⟩ }] ∧
      (persist_ticks ⟨2024, 1, 1⟩ "2024-01-01T10:00:00" (fun _ => false) false
        ⟨[], [], [], [], 1⟩
        [{ Tick.empty with
            instrument_token := some 1
            tradingsymbol := some "X"
            depth := some ⟨[⟨some 10, some 1, some 1⟩], [⟨some 11, some 2, some 1⟩]⟩ }]).1.ticks.length =
        (⟨[], [], [], [], 1⟩ : SqliteConn).ticks.length + 1) ∨
     ((persist_ticks ⟨2024, 1, 1⟩ "2024-01-01T10:00:00" (fun _ => false) false
        ⟨[], [], [], [], 1⟩
        [{ Tick.empty with
            instrument_token := some 1
            tradingsymbol := some "X"
            depth := some ⟨[⟨some 10, some 1, some 1⟩], [⟨some 11, some 2, some 1⟩]⟩ }]).1.ticks =
        (⟨[], [], [], [], 1⟩ : SqliteConn).ticks ∧
      (persist_ticks ⟨2024, 1, 1⟩ "2024-01-01T10:00:00" (fun _ => false) false
        ⟨[], [], [], [], 1⟩
        [{ Tick.empty with
            instrument_token := some 1
            tradingsymbol := some "X"
            depth := some ⟨[⟨some 10, some 1, some 1⟩], [⟨some 11, some 2, some 1⟩]⟩ }]).1.tick_depths =
        (⟨[], [], [], [], 1⟩ : SqliteConn).tick_depths)) ∧
    ((∀ j : Nat, (fun _ => false) j = false) → false = false →
      (persist_ticks ⟨2024, 1, 1⟩ "2024-01-01T10:00:00" (fun _ => false) false
        ⟨[], [], [], [], 1⟩
        [{ Tick.empty with
            instrument_token := some 1
            tradingsymbol := some "X"
            depth := some ⟨[⟨some 10, some 1, some 1⟩], [⟨some 11, some 2, some 1⟩]⟩ }]).1.ticks =
        (⟨[], [], [], [], 1⟩ : SqliteConn).ticks ++
          batchTickRows ⟨2024, 1, 1⟩ "2024-01-01T10:00:00" 1
            [{ Tick.empty with
                instrument_token := some 1
                tradingsymbol := some "X"
                depth := some ⟨[⟨some 10, some 1, some 1⟩], [⟨some 11, some 2, some 1⟩]⟩ }] ∧
      (persist_ticks ⟨2024, 1, 1⟩ "2024-01-01T10:00:00" (fun _ => false) false
        ⟨[], [], [], [], 1⟩
        [{ Tick.empty with
            instrument_token := some 1
            tradingsymbol := some "X"
            depth := some ⟨[⟨some 10, some 1, some 1⟩], [⟨some 11, some 2, some 1⟩]⟩ }]).2 = 1) :=
  persist_ticks_atomic ⟨2024, 1, 1⟩ "2024-01-01T10:00:00" (fun _ => false) false
    ⟨[], [], [], [], 1⟩
    [{ Tick.empty with
        instrument_token := some 1
        tradingsymbol := some "X"
        depth := some ⟨[⟨some 10, some 1, some 1⟩], [⟨some 11, some 2, some 1⟩]⟩ }]
    rfl rfl

/-- C1 (code-bug evidence): a write error inside `persist_ticks` is not
observable by the caller.  With a commit-time `sqlite3.Error` on a
one-tick batch the call returns the count `1` — indistinguishable from a
successful flush — and with an INSERT-time error it returns `0`; in both
cases it raises nothing and commits nothing.  `_periodic_persist`
re-buffers the batch only when the writer call raises
(src/receiver.py:285-294), so the flush cycle ends with an empty buffer:
the batch is silently discarded from both the database and the buffer,
contradicting the claim and the spec's "never silently discarded". -/
theorem persist_write_error_not_observable :
    ((persist_ticks ⟨2024, 1, 1⟩ "2024-01-01T10:00:00" (fun _ => false) true
        ⟨[], [], [], [], 1⟩
        [{ Tick.empty with
            instrument_token := some 1
            tradingsymbol := some "X" }]).2 = 1 ∧
      (persist_ticks ⟨2024, 1, 1⟩ "2024-01-01T10:00:00" (fun _ => false) true
        ⟨[], [], [], [], 1⟩
        [{ Tick.empty with
            instrument_token := some 1
            tradingsymbol := some "X" }]).1.ticks = [] ∧
      TickReceiver.flushCycle
        (fun b => Except.ok
          (persist_ticks ⟨2024, 1, 1⟩ "2024-01-01T10:00:00" (fun _ => false)
            true ⟨[], [], [], [], 1⟩ b).2)
        [{ Tick.empty with
            instrument_token := some 1
            tradingsymbol := some "X" }] [] = []) ∧
    ((persist_ticks ⟨2024, 1, 1⟩ "2024-01-01T10:00:00" (fun _ => true) false
        ⟨[], [], [], [], 1⟩
        [{ Tick.empty with
            instrument_token := some 1
            tradingsymbol := some "X" }]).2 = 0 ∧
      (persist_ticks ⟨2024, 1, 1⟩ "2024-01-01T10:00:00" (fun _ => true) false
        ⟨[], [], [], [], 1⟩
        [{ Tick.empty with
            instrument_token := some 1
            tradingsymbol := some "X" }]).1.ticks = [] ∧
      TickReceiver.flushCycle
        (fun b => Except.ok
          (persist_ticks ⟨2024, 1, 1⟩ "2024-01-01T10:00:00" (fun _ => true)
            false ⟨[], [], [], [], 1⟩ b).2)
        [{ Tick.empty with
            instrument_token := some 1
            tradingsymbol := some "X" }] [] = []) :=
  ⟨⟨rfl, rfl, rfl⟩, ⟨rfl, rfl, rfl⟩⟩

end TickPersistence

end ZLA
